import Mathlib

/-!
Verification of the Conductor task-orchestration engine.

This file shallowly embeds the core data model and algorithms of the
Conductor repository (src/conductor/...) in Lean 4 and proves or refutes
the frozen specification claims about them.

Conventions of the embedding:
* Python mutable objects become immutable structures; in-place mutation
  becomes functions returning the updated value.
* `datetime.now()` is modelled by an explicit `now` parameter (a `Nat`
  tick for task timestamps, a `String` iso-timestamp for sessions).
* Python floats are modelled by `ℚ` (the arithmetic in scope is exact).
* Exceptions become `Except`; a bare `try/except` that swallows the
  error becomes a `match` on the `Except` value.
-/

namespace Conductor

/-! ## Task model (src/conductor/tasks/models.py) -/

/-- `TaskStatus` enum from models.py. -/
inductive TaskStatus
  | pending
  | running
  | completed
  | failed
  | skipped
deriving DecidableEq, Repr

/-- `Priority` enum from models.py. -/
inductive Priority
  | low
  | medium
  | high
deriving DecidableEq, Repr

/-- `PRStrategy` enum from models.py. -/
inductive PRStrategy
  | aggressive
  | normal
  | patient
  | manual
deriving DecidableEq, Repr

/-- `RetryPolicy` pydantic model. Field bounds (`ge`/`le`) are recorded by
`RetryPolicy.valid` below; floats are modelled as rationals. -/
structure RetryPolicy where
  max_attempts : Nat := 3
  backoff_factor : ℚ := 2
  initial_delay : ℚ := 5
  max_delay : ℚ := 300
  jitter : ℚ := 1/5
deriving DecidableEq, Repr

/-- The pydantic `Field` constraints on `RetryPolicy`
(`max_attempts ∈ [1,10]`, `backoff_factor ∈ [1,5]`, `initial_delay ≥ 1`,
`max_delay ≥ 10`, `jitter ∈ [0, 1/2]`). -/
def RetryPolicy.valid (p : RetryPolicy) : Prop :=
  1 ≤ p.max_attempts ∧ p.max_attempts ≤ 10 ∧
  1 ≤ p.backoff_factor ∧ p.backoff_factor ≤ 5 ∧
  1 ≤ p.initial_delay ∧ 10 ≤ p.max_delay ∧
  0 ≤ p.jitter ∧ p.jitter ≤ 1/2

/-- `Task` pydantic model: configuration fields plus mutable runtime state.
Timestamps are `Nat` ticks. -/
structure Task where
  id : String
  name : String
  prompt : String
  expected_deliverable : String
  priority : Priority := .medium
  auto_pr_timeout : Nat := 1800
  pr_strategy : PRStrategy := .normal
  retry_policy : RetryPolicy := {}
  dependencies : List String := []
  repository : Option String := none
  status : TaskStatus := .pending
  created_at : Nat := 0
  started_at : Option Nat := none
  completed_at : Option Nat := none
  session_id : Option String := none
  branch_name : Option String := none
  pr_url : Option String := none
  error_message : Option String := none
  retry_count : Nat := 0
deriving DecidableEq, Repr

/-- Python truthiness of an `Optional[str]`: `None` and `""` are falsy. -/
def pyTruthy : Option String → Bool
  | none => false
  | some s => !(s = "")

/-- `Task.start`: set status running and stamp `started_at`. -/
def Task.start (t : Task) (now : Nat) : Task :=
  { t with status := .running, started_at := some now }

/-- `Task.complete`: set status completed, stamp `completed_at`, and
overwrite `session_id` / `branch_name` only when the argument is truthy
(`if session_id: ...`). -/
def Task.complete (t : Task) (session_id branch_name : Option String) (now : Nat) : Task :=
  { t with
    status := .completed
    completed_at := some now
    session_id := if pyTruthy session_id then session_id else t.session_id
    branch_name := if pyTruthy branch_name then branch_name else t.branch_name }

/-- `Task.fail`: set status failed, stamp `completed_at`, record the error. -/
def Task.fail (t : Task) (error : String) (now : Nat) : Task :=
  { t with status := .failed, completed_at := some now, error_message := some error }

/-- `Task.skip`: set status skipped and stamp `completed_at`. -/
def Task.skip (t : Task) (now : Nat) : Task :=
  { t with status := .skipped, completed_at := some now }

/-- `Task.increment_retry`. -/
def Task.increment_retry (t : Task) : Task :=
  { t with retry_count := t.retry_count + 1 }

/-- `Task.can_retry`. -/
def Task.can_retry (t : Task) : Bool :=
  t.retry_count < t.retry_policy.max_attempts

/-- One call of the four public status-changing operations on `Task`
(used to talk about arbitrary operation sequences). -/
inductive TaskOp
  | start (now : Nat)
  | complete (session_id branch_name : Option String) (now : Nat)
  | fail (error : String) (now : Nat)
  | skip (now : Nat)

/-- Apply one operation. -/
def applyTaskOp (op : TaskOp) (t : Task) : Task :=
  match op with
  | .start now => t.start now
  | .complete sid bn now => t.complete sid bn now
  | .fail e now => t.fail e now
  | .skip now => t.skip now

/-- Apply a sequence of operations, first element first. -/
def applyTaskOps (ops : List TaskOp) (t : Task) : Task :=
  ops.foldl (fun acc op => applyTaskOp op acc) t

/-! ## TaskList model and construction-time validation
(src/conductor/tasks/models.py, `TaskList`) -/

/-- The validation errors raised by the `TaskList` pydantic validators,
as a structured type; `render` gives the exact Python message text. -/
inductive ValidationError
  | duplicateIds
  | missingDep (task_id dep_id : String)
  | circularDep (task_id : String)
deriving DecidableEq, Repr

/-- The Python `ValueError` message of each validation error. -/
def ValidationError.render : ValidationError → String
  | .duplicateIds => "All task IDs must be unique"
  | .missingDep t d => "Task " ++ t ++ " depends on non-existent task " ++ d
  | .circularDep t => "Circular dependency detected involving task " ++ t

/-- `dep_map = {task.id: task.dependencies for task in v}`; a Python dict
built from unique keys, modelled as an association list. -/
abbrev DepMap := List (String × List String)

/-- `dep_map.get(task_id, [])`. -/
def lookupDeps (dm : DepMap) (task_id : String) : List String :=
  match dm.find? (fun p => decide (p.1 = task_id)) with
  | some p => p.2
  | none => []

/-- The `for dep in dep_map.get(task_id, [])` loop body of `has_cycle`,
with the recursive call (at one lower fuel level) passed in as `next`:
an unvisited dependency is explored recursively (`True` short-circuits,
otherwise the enlarged `visited` is threaded on), a visited dependency on
the recursion stack reports a cycle. -/
def hasCycleDeps (next : String → Finset String → Finset String → Bool × Finset String) :
    List String → Finset String → Finset String → Bool × Finset String
  | [], visited, _ => (false, visited)
  | dep :: deps, visited, rec_stack =>
      if dep ∉ visited then
        match next dep visited rec_stack with
        | (true, visited') => (true, visited')
        | (false, visited') => hasCycleDeps next deps visited' rec_stack
      else if dep ∈ rec_stack then (true, visited)
      else hasCycleDeps next deps visited rec_stack

/-- The `has_cycle(task_id, visited, rec_stack, dep_map)` DFS of
`TaskList.validate_dependencies`.  Python's shared mutable sets become a
threaded `visited` (returned, since additions persist) and a passed-down
`rec_stack` (each frame removes its own node before returning `False`, so
the caller's continuation sees exactly the `rec_stack` it passed in).
The recursion is bounded by a `fuel` depth counter; each nested call is
made on an unvisited node and inserts it, so depth is bounded by the
number of distinct ids and `cycleFuel` below never lets fuel reach 0. -/
def hasCycle : Nat → DepMap → String → Finset String → Finset String → Bool × Finset String
  | 0, _, _, visited, _ => (true, visited)
  | fuel + 1, dm, task_id, visited, rec_stack =>
      hasCycleDeps (hasCycle fuel dm) (lookupDeps dm task_id)
        (insert task_id visited) (insert task_id rec_stack)

/-- All ids and dependency ids mentioned by the task list. -/
def depUniverse (tasks : List Task) : Finset String :=
  tasks.foldl (fun acc t => insert t.id acc ∪ t.dependencies.toFinset) ∅

/-- Depth budget that `has_cycle` can never exhaust (the Python recursion
is unbounded but its depth is at most the number of distinct ids). -/
def cycleFuel (tasks : List Task) : Nat :=
  (depUniverse tasks).card + 1

/-- The `for task in v: if task.id not in visited: if has_cycle(...): raise`
loop of `validate_dependencies`.  The shared `rec_stack` is empty whenever
control is back in this loop (every frame removes its node on a `False`
return), so each top-level call starts from `∅`. -/
def validateCyclesGo (fuel : Nat) (dm : DepMap) : List Task → Finset String → Except ValidationError Unit
  | [], _ => .ok ()
  | t :: ts, visited =>
      if t.id ∉ visited then
        match hasCycle fuel dm t.id visited ∅ with
        | (true, _) => .error (.circularDep t.id)
        | (false, visited') => validateCyclesGo fuel dm ts visited'
      else validateCyclesGo fuel dm ts visited

/-- The "check all dependencies exist" loop of `validate_dependencies`:
first task (in list order) with a dependency outside `ids` raises. -/
def checkMissingDeps (ids : List String) : List Task → Except ValidationError Unit
  | [] => .ok ()
  | t :: ts =>
      match t.dependencies.find? (fun d => decide (d ∉ ids)) with
      | some d => .error (.missingDep t.id d)
      | none => checkMissingDeps ids ts

/-- `dep_map = {task.id: task.dependencies for task in v}`. -/
def depMapOf (tasks : List Task) : DepMap :=
  tasks.map (fun t => (t.id, t.dependencies))

/-- `TaskList.validate_unique_ids`: Python compares `len(ids)` with
`len(set(ids))`, which is exactly the no-duplicates test. -/
def validate_unique_ids (tasks : List Task) : Except ValidationError Unit :=
  if (tasks.map Task.id).Nodup then .ok () else .error .duplicateIds

/-- `TaskList.validate_dependencies`: dangling-reference check first,
then the DFS cycle check. -/
def validate_dependencies (tasks : List Task) : Except ValidationError Unit := do
  checkMissingDeps (tasks.map Task.id) tasks
  validateCyclesGo (cycleFuel tasks) (depMapOf tasks) tasks ∅

/-- Full construction-time validation of a `TaskList`: pydantic runs the
field validators in definition order (`validate_unique_ids`, then
`validate_dependencies`). -/
def validateTaskList (tasks : List Task) : Except ValidationError Unit := do
  validate_unique_ids tasks
  validate_dependencies tasks

/-- `TaskList`: the collection of tasks (validation is the separate
`validateTaskList`, run at construction). -/
structure TaskList where
  tasks : List Task
deriving DecidableEq, Repr

/-- First task with the given id in a task list, else `None`
(the loop body shared by `TaskList.get_task` and the orchestrator's
`self.task_list.get_task`). -/
def getTaskIn (tasks : List Task) (task_id : String) : Option Task :=
  tasks.find? (fun t => decide (t.id = task_id))

/-- `TaskList.get_task`: first task with the given id, else `None`. -/
def TaskList.get_task (tl : TaskList) (task_id : String) : Option Task :=
  getTaskIn tl.tasks task_id

/-- `TaskList.get_pending_tasks`. -/
def TaskList.get_pending_tasks (tl : TaskList) : List Task :=
  tl.tasks.filter (fun t => decide (t.status = .pending))

/-- `TaskList.get_runnable_tasks`: pending tasks all of whose dependencies
resolve to a completed task (`... if self.get_task(dep_id) else False`). -/
def TaskList.get_runnable_tasks (tl : TaskList) : List Task :=
  tl.tasks.filter (fun t =>
    decide (t.status = .pending) &&
    t.dependencies.all (fun dep_id =>
      match tl.get_task dep_id with
      | some d => decide (d.status = .completed)
      | none => false))

/-- One `complete()` call on the task of a `TaskList` with the given id
(in Python the caller mutates the shared `Task` object in place). -/
structure CompleteCall where
  task_id : String
  session_id : Option String := none
  branch_name : Option String := none
  now : Nat := 0

/-- Apply one `complete()` call to the matching task. -/
def TaskList.completeTask (tl : TaskList) (c : CompleteCall) : TaskList :=
  ⟨tl.tasks.map (fun t =>
    if t.id = c.task_id then t.complete c.session_id c.branch_name c.now else t)⟩

/-- Apply a sequence of `complete()` calls, first element first. -/
def TaskList.applyCompletes (tl : TaskList) (cs : List CompleteCall) : TaskList :=
  cs.foldl TaskList.completeTask tl

/-! ## Retry backoff (src/conductor/utils/retry.py) -/

/-- `calculate_jitter(delay, jitter)`: the random draw
`random.uniform(-jitter, jitter)` is made explicit as the parameter `u`;
callers guarantee `-jitter ≤ u ≤ jitter`.  Returns
`max(0.0, delay + delay * u)`. -/
def calculate_jitter (delay jitter u : ℚ) : ℚ :=
  let jitter_amount := delay * u
  max 0 (delay + jitter_amount)

/-- `exponential_backoff(attempt, initial_delay, backoff_factor, max_delay, jitter)`
with the jitter draw `u` explicit:
`min(initial_delay * backoff_factor ^ attempt, max_delay)` then jitter. -/
def exponential_backoff (attempt : Nat)
    (initial_delay backoff_factor max_delay jitter u : ℚ) : ℚ :=
  let delay := min (initial_delay * backoff_factor ^ attempt) max_delay
  calculate_jitter delay jitter u

/-! ## Parallel orchestrator (src/conductor/orchestrator_parallel.py)

The executor `_execute_single_task` drives the browser; it is abstracted
here by an outcome function: one attempt either succeeds, in which case
the code ends with `task.complete(session_id or "session_<id>", branch_name)`
(both arguments are then non-empty strings), or raises, carrying the
message `str(e)`.  Everything around that call — the retry loop, the
semaphore wrapper, the wave scheduler, the summary — is embedded from the
source.  The model also records a trace of status-transition events
`(task id, new status)` in execution order; within one wave the asyncio
interleaving is serialized in list order (each task's fields are only
touched by its own executor), while the ordering *between* waves is exact
because the code awaits `asyncio.gather` on a wave before computing the
next runnable set. -/

/-- Result of one attempt of `_execute_single_task`: success carries the
`(session_id, branch_name)` passed to `task.complete`, failure the
exception message. -/
abbrev AttemptOutcome := Except String (String × String)

/-- A status-transition event: `(task id, new status)`. -/
abbrev OrchEvent := String × TaskStatus

/-- The `for attempt in range(task.retry_policy.max_attempts)` loop of
`_execute_task_with_retry`, from iteration `attempt` with `remaining`
iterations left (`remaining = max_attempts - attempt` at entry).  Each
failure calls `task.increment_retry()`; on the last iteration the
exception is re-raised (`Except.error` carrying the mutated task),
otherwise the loop sleeps `exponential_backoff(attempt)` and continues.
A run off the end of the loop (only possible if `max_attempts = 0`,
which `RetryPolicy` forbids) returns without completing the task. -/
def executeAttempts (outcome : Nat → AttemptOutcome) (now : Nat) :
    Nat → Nat → Task → (Except (String × Task) Task) × List OrchEvent
  | 0, _, t => (.ok t, [])
  | remaining + 1, attempt, t =>
      match outcome attempt with
      | .ok (sid, bn) =>
          (.ok (t.complete (some sid) (some bn) now), [(t.id, .completed)])
      | .error e =>
          let t' := t.increment_retry
          if remaining = 0 then (.error (e, t'), [])
          else executeAttempts outcome now remaining (attempt + 1) t'

/-- `_execute_task_with_retry`: `task.start()` once, then the attempt
loop. -/
def execute_task_with_retry (outcome : Nat → AttemptOutcome) (now : Nat)
    (task : Task) : (Except (String × Task) Task) × List OrchEvent :=
  let task := task.start now
  let (r, tr) := executeAttempts outcome now task.retry_policy.max_attempts 0 task
  (r, (task.id, .running) :: tr)

/-- `_execute_task_with_semaphore`: run the retry loop; on success append
the task to `completed_tasks` (the `true` flag), on any exception call
`task.fail(str(e))` and append to `failed_tasks` (`false`).  The
exception never escapes this wrapper. -/
def execute_task_with_semaphore (outcome : Nat → AttemptOutcome) (now : Nat)
    (task : Task) : (Task × Bool) × List OrchEvent :=
  match execute_task_with_retry outcome now task with
  | (.ok t', tr) => ((t', true), tr)
  | (.error (e, t'), tr) =>
      let tf := t'.fail e now
      ((tf, false), tr ++ [(tf.id, .failed)])

/-- Orchestrator run state: the shared task list plus the
`completed_tasks` / `failed_tasks` accumulators and the event trace. -/
structure OrchState where
  tasks : List Task
  completed : List Task := []
  failed : List Task := []
  trace : List OrchEvent := []
deriving Repr

/-- In-place mutation of the shared `Task` object, for unique ids:
replace the entry with the same id. -/
def updateTask (tasks : List Task) (t' : Task) : List Task :=
  tasks.map (fun u => if u.id = t'.id then t' else u)

/-- Run one wave: `asyncio.gather(*coroutines, return_exceptions=True)` —
every task in the wave runs to its own outcome regardless of the others
(the wrapper already catches all exceptions).  The model serializes the
wave in list order. -/
def runWave (outcomes : String → Nat → AttemptOutcome) (now : Nat)
    (wave : List Task) (st : OrchState) : OrchState :=
  wave.foldl (fun st t =>
    let ((t', ok), tr) := execute_task_with_semaphore (outcomes t.id) now t
    { st with
      tasks := updateTask st.tasks t'
      completed := if ok then st.completed ++ [t'] else st.completed
      failed := if ok then st.failed else st.failed ++ [t']
      trace := st.trace ++ tr }) st

/-- `_process_dependent_tasks`: up to `max_iterations` rounds, each
recomputing the runnable set (pending tasks whose dependencies are all
completed) and running it as a wave; stop when no task is runnable.
In the `none` branch of the dependency lookup the source would raise
`AttributeError` (`get_task(dep_id).status` on `None`); that branch is
unreachable for lists that passed construction-time validation. -/
def processDependentTasks (outcomes : String → Nat → AttemptOutcome) (now : Nat) :
    Nat → OrchState → OrchState
  | 0, st => st
  | it + 1, st =>
      let runnable := st.tasks.filter (fun t =>
        decide (t.status = .pending) &&
        t.dependencies.all (fun dep_id =>
          match getTaskIn st.tasks dep_id with
          | some d => decide (d.status = .completed)
          | none => false))
      if runnable = [] then st
      else processDependentTasks outcomes now it (runWave outcomes now runnable st)

/-- `_execute_tasks_parallel`: first the wave of tasks with no
dependencies (`if not task.dependencies`), then the dependent-task loop
with `max_iterations = len(task_list) * 2`. -/
def execute_tasks_parallel (outcomes : String → Nat → AttemptOutcome) (now : Nat)
    (st : OrchState) : OrchState :=
  let wave := st.tasks.filter (fun t => decide (t.dependencies = []))
  let st' := runWave outcomes now wave st
  processDependentTasks outcomes now (2 * st'.tasks.length) st'

/-- The counts reported by `_show_completion`. -/
structure Summary where
  completed : Nat
  failed : Nat
  skipped : Nat
deriving DecidableEq, Repr

/-- `_show_completion`: completed/failed from the accumulator lists,
skipped by scanning the task list. -/
def show_completion (st : OrchState) : Summary :=
  { completed := st.completed.length
    failed := st.failed.length
    skipped := (st.tasks.filter (fun t => decide (t.status = .skipped))).length }

/-! ## Snapshot parsing (src/conductor/mcp/browser_snapshot_parser.py)

Page text is modelled as `List Char`.  `extract_snapshot_text` is the
identity on plain strings, which is what `_wait_for_task_completion`
passes in, so it does not appear separately. -/

/-- `str.lower()` (the texts in scope are ASCII). -/
def toLowerL (cs : List Char) : List Char := cs.map Char.toLower

/-- `str.strip()`. -/
def stripL (cs : List Char) : List Char :=
  ((cs.dropWhile Char.isWhitespace).reverse.dropWhile Char.isWhitespace).reverse

/-- `haystack.startswith(needle)`. -/
def startsWithL : List Char → List Char → Bool
  | [], _ => true
  | _ :: _, [] => false
  | a :: ps, b :: rest => decide (a = b) && startsWithL ps rest

/-- Python `needle in haystack` on strings. -/
def containsSub (needle : List Char) : List Char → Bool
  | [] => startsWithL needle []
  | c :: rest => startsWithL needle (c :: rest) || containsSub needle rest

/-- `str.split(sep)` for a one-character separator. -/
def splitOnCharL (sep : Char) : List Char → List (List Char)
  | [] => [[]]
  | c :: rest =>
      match splitOnCharL sep rest with
      | [] => [[]]
      | cur :: parts => if c = sep then [] :: cur :: parts else (c :: cur) :: parts

/-- `re.search(r"\[ref=([^\]]+)\]", line)`: scan for an occurrence of
`[ref=` followed by a non-empty run of non-`]` characters and a closing
`]`; like the regex engine, an occurrence of `[ref=` that cannot be
completed is passed over and the scan continues. -/
def refSearch : List Char → Option (List Char)
  | [] => none
  | c :: rest =>
      if startsWithL "[ref=".data (c :: rest) then
        let after := (c :: rest).drop 5
        let cap := after.takeWhile (fun ch => decide (ch ≠ ']'))
        if cap ≠ [] ∧ (after.drop cap.length).head? = some ']' then some cap
        else refSearch rest
      else refSearch rest

/-- The simplified element record produced by `parse_elements`. -/
structure SnapElement where
  type : List Char
  name : List Char
  text : List Char
  ref : List Char
  raw : List Char
deriving DecidableEq, Repr

/-- The per-line body of `parse_elements`: strip, require a `-`/`•` list
marker and a `[ref=...]`, strip markers / trailing colon / wrapping
quotes, take the leading alphabetic run as the element type, and extract
a quoted name if present (`parts[1]` of the split on the quote). -/
def parseElementLine (raw_line : List Char) : Option SnapElement :=
  let line := stripL raw_line
  if ¬ (line.head? = some '-' ∨ line.head? = some '•') then none
  else
    match refSearch line with
    | none => none
    | some element_ref =>
        let body := stripL (line.dropWhile (fun ch => decide (ch = '-' ∨ ch = '•')))
        let body := if body.getLast? = some ':' then body.dropLast else body
        let body :=
          if body.head? = some '\'' ∧ body.getLast? = some '\'' then
            (body.drop 1).dropLast
          else body
        let tmatch := body.takeWhile Char.isAlpha
        if tmatch = [] then none
        else
          let element_type := toLowerL tmatch
          let remainder := stripL (body.drop tmatch.length)
          let element_name :=
            if remainder.head? = some '"' then
              match splitOnCharL '"' remainder with
              | _ :: p1 :: _ => p1
              | _ => []
            else if remainder.head? = some '\'' then
              match splitOnCharL '\'' remainder with
              | _ :: p1 :: _ => p1
              | _ => []
            else []
          some { type := element_type
                 name := element_name
                 text := if element_name = [] then remainder else element_name
                 ref := element_ref
                 raw := toLowerL line }

/-- `parse_elements`: one element per qualifying line, in order.
(`str.splitlines` is modelled as splitting on `'\n'`; stray `'\r'` is
removed by the per-line strip.) -/
def parse_elements (text : List Char) : List SnapElement :=
  (splitOnCharL '\n' text).filterMap parseElementLine

/-- The element loop of `is_create_pr_button_enabled`: the first button
element whose raw line mentions `create pr` decides; enabled iff its raw
line does not mention `[disabled]`. -/
def firstCreatePrDecision : List SnapElement → Bool
  | [] => false
  | e :: es =>
      if e.type = "button".data ∧ containsSub "create pr".data e.raw then
        !(containsSub "[disabled]".data e.raw)
      else firstCreatePrDecision es

/-- `is_create_pr_button_enabled(snapshot_text)` (empty text parses to no
elements, giving `False` like the early-return in the source). -/
def is_create_pr_button_enabled (snapshot_text : List Char) : Bool :=
  firstCreatePrDecision (parse_elements snapshot_text)

/-- The regex class `[a-zA-Z0-9\-_]`. -/
def isBranchChar (c : Char) : Bool := c.isAlphanum || decide (c = '-') || decide (c = '_')

/-- `re.search(r"claude/[a-zA-Z0-9\-_]+", text)`: first position where
`claude/` is followed by at least one branch character; the greedy run
after it is the match. -/
def branchScan : List Char → Option (List Char)
  | [] => none
  | c :: rest =>
      if startsWithL "claude/".data (c :: rest) ∧
          ((c :: rest).drop 7).takeWhile isBranchChar ≠ [] then
        some ("claude/".data ++ ((c :: rest).drop 7).takeWhile isBranchChar)
      else branchScan rest

/-- `extract_branch_name`: the first pattern `claude/[a-zA-Z0-9\-_]+` is
tried first and matches whenever either of the later two
(`Branch:\s*(claude/...)`, `Working on:\s*(claude/...)`) could, and both
capture exactly the `claude/...` run, so the function reduces to the
first search. -/
def extract_branch_name (snapshot_text : List Char) : Option (List Char) :=
  branchScan snapshot_text

/-- The `completion_keywords` list of `_wait_for_task_completion`. -/
def completion_keywords : List (List Char) :=
  ["pushed to branch".data, "create pr".data, "pull request".data,
   "committed".data, "merged".data]

/-- One polling iteration of `_wait_for_task_completion` on the page
text: the primary signal (`is_create_pr_button_enabled`), else the
secondary signal — an extractable branch name together with at least one
completion keyword in the lowercased text.  `true` means the task is
reported complete (the wait returns), `false` means the loop sleeps and
polls again. -/
def checkTaskComplete (page_text : List Char) : Bool :=
  if is_create_pr_button_enabled page_text then true
  else if (extract_branch_name page_text).isSome then
    completion_keywords.any (fun k => containsSub k (toLowerL page_text))
  else false

/-! ## Session manager (src/conductor/browser/session.py)

The append-only `sessions.jsonl` file is modelled as a list of lines,
each either `none` (text that `json.loads` rejects) or `some j` for a
JSON value `j`.  The JSON fragment needed by the session records is
null / string / number / object; `datetime` values are represented by
their `isoformat()` string (date-format validity is not modelled, so the
`ValueError` that `fromisoformat` can raise on an ill-formed *string* is
out of scope — no theorem below quantifies over such lines).  Records
whose id fields hold non-string JSON are likewise outside the model and
mapped to the escaping error class. -/

/-- A JSON value (the fragment relevant to session records). -/
inductive Json
  | null
  | str (s : String)
  | num (n : Int)
  | obj (fields : List (String × Json))

/-- `dict.get(k)` on a parsed JSON object (records written by this code
have unique keys). -/
def jsonGet (fields : List (String × Json)) (k : String) : Option Json :=
  match fields.find? (fun p => decide (p.1 = k)) with
  | some p => some p.2
  | none => none

/-- `SessionInfo`: `started_at` is the isoformat timestamp string
(`__init__` replaces a falsy `started_at` with `datetime.now()`, so it is
never absent after construction). -/
structure SessionInfo where
  session_id : String
  task_id : String
  branch_name : Option String
  started_at : String
  url : Option String
deriving DecidableEq, Repr

/-- `SessionInfo.to_dict`. -/
def SessionInfo.to_dict (s : SessionInfo) : Json :=
  .obj [("session_id", .str s.session_id),
        ("task_id", .str s.task_id),
        ("branch_name", match s.branch_name with | some b => .str b | none => .null),
        ("started_at", .str s.started_at),
        ("url", match s.url with | some u => .str u | none => .null)]

/-- How a log line fails to replay: `decode` (`json.JSONDecodeError`) and
`key` (`KeyError`) are caught by the per-line handler of
`load_sessions`; `other` (e.g. `TypeError` from subscripting or
date-parsing a non-string) escapes it. -/
inductive LoadErr
  | decode
  | key
  | other
deriving DecidableEq, Repr

/-- `SessionInfo.from_dict(data)`, evaluation in source order:
`data.get("started_at")` is parsed first (a falsy value is replaced by
`datetime.now()`, the `now` argument here; a non-string truthy value
makes `fromisoformat` raise `TypeError`), then `data["session_id"]` and
`data["task_id"]` (missing key → `KeyError`), then the `.get` fields.
A non-object value raises `TypeError` on the first subscript. -/
def SessionInfo.from_dict (now : String) : Json → Except LoadErr SessionInfo
  | .obj fields => do
      let started_at ← match jsonGet fields "started_at" with
        | none => pure now
        | some .null => pure now
        | some (.str s) => pure s
        | some _ => throw .other
      let session_id ← match jsonGet fields "session_id" with
        | some (.str s) => pure s
        | none => throw .key
        | some _ => throw .other
      let task_id ← match jsonGet fields "task_id" with
        | some (.str s) => pure s
        | none => throw .key
        | some _ => throw .other
      let branch_name ← match jsonGet fields "branch_name" with
        | some (.str s) => pure (some s)
        | _ => pure none
      let url ← match jsonGet fields "url" with
        | some (.str s) => pure (some s)
        | _ => pure none
      pure { session_id, task_id, branch_name, started_at, url }
  | _ => throw .other

/-- The line-replay loop of `load_sessions`: `decode`/`key` failures are
skipped by the per-line `except (json.JSONDecodeError, KeyError)`; any
other error escapes to the function-level `except Exception`, which logs
and returns — the sessions replayed so far are kept, the remaining lines
are dropped. -/
def loadSessionsGo (now : String) : List (Option Json) → List SessionInfo → List SessionInfo
  | [], acc => acc
  | line :: rest, acc =>
      match line with
      | none => loadSessionsGo now rest acc
      | some j =>
          match SessionInfo.from_dict now j with
          | .ok s => loadSessionsGo now rest (acc ++ [s])
          | .error .decode => loadSessionsGo now rest acc
          | .error .key => loadSessionsGo now rest acc
          | .error .other => acc

/-- `load_sessions()`: reset the in-memory cache, then replay the log. -/
def load_sessions (now : String) (log : List (Option Json)) : List SessionInfo :=
  loadSessionsGo now log []

/-- `SessionManager` state: the in-memory cache and the log file. -/
structure SessionManager where
  sessions : List SessionInfo := []
  log : List (Option Json) := []

/-- The raw append of one JSON line; `writeOk = false` models an I/O
failure of the `open`/`write`. -/
def persistRaw (writeOk : Bool) (log : List (Option Json)) (s : SessionInfo) :
    Except String (List (Option Json)) :=
  if writeOk then .ok (log ++ [some s.to_dict]) else .error "write failed"

/-- `_persist_session`: the write is wrapped in `try/except Exception`,
which logs and swallows the failure — the log is simply left unchanged. -/
def persist_session (writeOk : Bool) (mgr : SessionManager) (s : SessionInfo) :
    SessionManager :=
  match persistRaw writeOk mgr.log s with
  | .ok log' => { mgr with log := log' }
  | .error _ => mgr

/-- `add_session(session_id, task_id, branch_name, url)`: create the
`SessionInfo` (stamping `started_at` with now), append it in memory,
persist it, and return it. -/
def add_session (writeOk : Bool) (mgr : SessionManager)
    (session_id task_id : String) (branch_name url : Option String)
    (now : String) : SessionInfo × SessionManager :=
  let s : SessionInfo :=
    { session_id, task_id, branch_name, started_at := now, url }
  let mgr := { mgr with sessions := mgr.sessions ++ [s] }
  (s, persist_session writeOk mgr s)

/-- The arguments of one `add_session` call, for stating the round-trip
property over arbitrary call sequences. -/
structure AddCall where
  session_id : String
  task_id : String
  branch_name : Option String := none
  url : Option String := none
  now : String := ""
deriving DecidableEq, Repr

/-- Run a sequence of `add_session` calls (all with successful writes). -/
def applyAddCalls (mgr : SessionManager) (cs : List AddCall) : SessionManager :=
  cs.foldl (fun m c =>
    (add_session true m c.session_id c.task_id c.branch_name c.url c.now).2) mgr

/-- The `(session_id, task_id, branch_name)` tuple of a session. -/
def sessionTuple (s : SessionInfo) : String × String × Option String :=
  (s.session_id, s.task_id, s.branch_name)

/-- The record that one `add_session(session_id, task_id, branch_name, url)`
call creates (`started_at` stamped with now). -/
def sessionOf (session_id task_id : String) (branch_name url : Option String)
    (now : String) : SessionInfo :=
  { session_id, task_id, branch_name, started_at := now, url }

/-! ## Concrete instances used by witnesses and counterexamples -/

/-- A minimal valid task (all optional fields at their defaults). -/
def baseTask : Task :=
  { id := "T", name := "T", prompt := "p", expected_deliverable := "d" }

/-- Task `A` of the two-task scenarios: no dependencies. -/
def taskA : Task := { baseTask with id := "A", name := "A" }

/-- Task `B` of the two-task scenarios: depends on `A`. -/
def taskB : Task := { baseTask with id := "B", name := "B", dependencies := ["A"] }

/-- Mutually dependent pair: `A` depends on `B` here. -/
def taskAB : Task := { baseTask with id := "A", name := "A", dependencies := ["B"] }

/-- Mutually dependent pair: `B` depends on `A`. -/
def taskBA : Task := { baseTask with id := "B", name := "B", dependencies := ["A"] }

/-- A task depending on a nonexistent id. -/
def taskC : Task := { baseTask with id := "C", name := "C", dependencies := ["ghost"] }

/-- Page text with a disabled Create-PR button and, elsewhere in the
text, a branch name plus a completion keyword. -/
def cexSnapshotText : String :=
  "- button \"Create PR\" [disabled] [ref=e1]\nclaude/my-branch pushed to branch"

/-- The single element that `parse_elements` extracts from
`cexSnapshotText`. -/
def cexSnapshotElement : SnapElement :=
  { type := "button".data
    name := "Create PR".data
    text := "Create PR".data
    ref := "e1".data
    raw := "- button \"create pr\" [disabled] [ref=e1]".data }

/-- Page text with an enabled Create-PR button. -/
def enabledSnapshotText : String := "- button \"Create PR\" [ref=e2]"

/-- The single element that `parse_elements` extracts from
`enabledSnapshotText`. -/
def enabledSnapshotElement : SnapElement :=
  { type := "button".data
    name := "Create PR".data
    text := "Create PR".data
    ref := "e2".data
    raw := "- button \"create pr\" [ref=e2]".data }

/-- The element predicate of the `is_create_pr_button_enabled` loop:
a button whose raw line mentions `create pr`. -/
def isCreatePrButton (e : SnapElement) : Bool :=
  decide (e.type = "button".data) && containsSub "create pr".data e.raw

/-- Whether a validation outcome is an error citing a circular
dependency. -/
def citesCircular : Except ValidationError Unit → Bool
  | .error (.circularDep _) => true
  | _ => false

/-- Whether a validation outcome is an error citing a missing
dependency. -/
def citesMissing : Except ValidationError Unit → Bool
  | .error (.missingDep _ _) => true
  | _ => false

/-- Two session-creation calls for the load round-trip scenarios. -/
def addCall1 : AddCall := { session_id := "s1", task_id := "t1", branch_name := some "b1", now := "2025-01-01T00:00:00" }

/-- Second session-creation call. -/
def addCall2 : AddCall := { session_id := "s2", task_id := "t2", branch_name := some "b2", now := "2025-01-01T00:00:01" }

/-- The session record of `addCall1`. -/
def sess1 : SessionInfo := { session_id := "s1", task_id := "t1", branch_name := some "b1", started_at := "2025-01-01T00:00:00", url := none }

/-- The session record of `addCall2`. -/
def sess2 : SessionInfo := { session_id := "s2", task_id := "t2", branch_name := some "b2", started_at := "2025-01-01T00:00:01", url := none }

/-- A session log holding two well-formed lines with a `42` line — valid
JSON that is not an object — between them. -/
def cexSessionLog : List (Option Json) :=
  [some sess1.to_dict, some (Json.num 42), some sess2.to_dict]

/-- Attempt outcomes for the two-task end-to-end scenario: every task
succeeds on its first attempt. -/
def allSucceedOutcomes : String → Nat → AttemptOutcome :=
  fun task_id _ => .ok ("session_" ++ task_id, "claude/" ++ task_id)

/-- Attempt outcomes that always fail. -/
def allFailOutcomes : String → Nat → AttemptOutcome :=
  fun task_id n => .error ("task " ++ task_id ++ " attempt " ++ toString n ++ " failed")

/-! # Theorems

## C10 — frame conditions of `Task.complete` -/

/-- C10: `complete(session_id=None, branch_name=None)` — and generally
`complete` with falsy (`None` or `""`) arguments — sets `status` to
completed and stamps `completed_at`, and leaves every other field
unchanged; in particular an existing `session_id` / `branch_name` is
never overwritten by a falsy argument. -/
theorem complete_frame_spec (t : Task) (sid bn : Option String) (now : Nat)
    (hsid : sid = none ∨ sid = some "") (hbn : bn = none ∨ bn = some "") :
    (t.complete sid bn now).status = .completed ∧
    (t.complete sid bn now).completed_at = some now ∧
    (t.complete sid bn now).session_id = t.session_id ∧
    (t.complete sid bn now).branch_name = t.branch_name ∧
    (t.complete sid bn now).id = t.id ∧
    (t.complete sid bn now).name = t.name ∧
    (t.complete sid bn now).prompt = t.prompt ∧
    (t.complete sid bn now).expected_deliverable = t.expected_deliverable ∧
    (t.complete sid bn now).priority = t.priority ∧
    (t.complete sid bn now).auto_pr_timeout = t.auto_pr_timeout ∧
    (t.complete sid bn now).pr_strategy = t.pr_strategy ∧
    (t.complete sid bn now).retry_policy = t.retry_policy ∧
    (t.complete sid bn now).dependencies = t.dependencies ∧
    (t.complete sid bn now).repository = t.repository ∧
    (t.complete sid bn now).created_at = t.created_at ∧
    (t.complete sid bn now).started_at = t.started_at ∧
    (t.complete sid bn now).pr_url = t.pr_url ∧
    (t.complete sid bn now).error_message = t.error_message ∧
    (t.complete sid bn now).retry_count = t.retry_count := by
  rcases hsid with h1 | h1 <;> rcases hbn with h2 | h2 <;> subst h1 <;> subst h2 <;>
    simp [Task.complete, pyTruthy]

/-- Witness for C10 at a concrete task and falsy arguments. -/
theorem complete_frame_spec_witness :
    (baseTask.complete none (some "") 5).session_id = baseTask.session_id ∧
    (baseTask.complete none (some "") 5).branch_name = baseTask.branch_name ∧
    (baseTask.complete none (some "") 5).status = .completed :=
  ⟨(complete_frame_spec baseTask none (some "") 5 (Or.inl rfl) (Or.inr rfl)).2.2.1,
   (complete_frame_spec baseTask none (some "") 5 (Or.inl rfl) (Or.inr rfl)).2.2.2.1,
   (complete_frame_spec baseTask none (some "") 5 (Or.inl rfl) (Or.inr rfl)).1⟩

/-! ## C7 — status transitions -/

/-- C7 counterexample: the status setters are unconditional, so an
operation *can* move a task out of a terminal status: after `complete()`
the status is completed (terminal), yet a further `start()` moves it to
running. -/
theorem status_terminal_escape_cex :
    (applyTaskOps [.complete none none 1] baseTask).status = .completed ∧
    (applyTaskOps [.complete none none 1, .start 2] baseTask).status = .running ∧
    TaskStatus.running ≠ .completed := by
  refine ⟨rfl, rfl, by decide⟩

/-- C7 amended: what does hold is the "never back to pending" half of the
claim: each of the four operations unconditionally sets a non-pending
status, so after any nonempty sequence of `start`/`complete`/`fail`/`skip`
the status is never pending.  (Terminal statuses are *not* protected —
see the counterexample.) -/
theorem status_never_pending_again (t : Task) (ops : List TaskOp) (h : ops ≠ []) :
    (applyTaskOps ops t).status ≠ .pending := by
  induction ops generalizing t with
  | nil => exact absurd rfl h
  | cons op rest ih =>
      cases rest with
      | nil =>
          cases op <;>
            simp [applyTaskOps, applyTaskOp, Task.start, Task.complete, Task.fail, Task.skip]
      | cons op2 rest2 =>
          have hstep : applyTaskOps (op :: op2 :: rest2) t =
              applyTaskOps (op2 :: rest2) (applyTaskOp op t) := rfl
          rw [hstep]
          exact ih (applyTaskOp op t) (by simp)

/-- Witness for C7 (amended) at a concrete task and operation list. -/
theorem status_never_pending_again_witness :
    (applyTaskOps [.fail "x" 3] baseTask).status ≠ .pending :=
  status_never_pending_again baseTask [.fail "x" 3] (by simp)

/-! ## C9 — `add_session` never fails the caller -/

/-- C9: `add_session` always returns the created `SessionInfo` and
appends it to the in-memory list; when the log write fails, the failure
is swallowed inside `_persist_session` (the log is simply unchanged) and
nothing propagates to the caller. -/
theorem add_session_never_fails_spec (writeOk : Bool) (mgr : SessionManager)
    (sid tid : String) (bn url : Option String) (now : String) :
    (add_session writeOk mgr sid tid bn url now).1 = sessionOf sid tid bn url now ∧
    (add_session writeOk mgr sid tid bn url now).2.sessions =
      mgr.sessions ++ [sessionOf sid tid bn url now] ∧
    (writeOk = false → (add_session writeOk mgr sid tid bn url now).2.log = mgr.log) := by
  cases writeOk <;> simp [add_session, persist_session, persistRaw, sessionOf]

/-- Witness for C9 at a concrete call with a failing write. -/
theorem add_session_never_fails_spec_witness :
    (add_session false {} "s" "t" none none "T").2.log = ({} : SessionManager).log ∧
    (add_session false {} "s" "t" none none "T").2.sessions =
      ({} : SessionManager).sessions ++ [sessionOf "s" "t" none none "T"] :=
  ⟨(add_session_never_fails_spec false {} "s" "t" none none "T").2.2 rfl,
   (add_session_never_fails_spec false {} "s" "t" none none "T").2.1⟩

/-! ## C6 — backoff delay -/

/-- C6: with the jitter draw zero, the delay is exactly
`min(initial · factor ^ attempt, max_delay)`; it is monotone in the
attempt and pinned at `max_delay` from the cap-crossing attempt on; the
example policy `(5, 2, 300)` yields 5,10,20,40,80,160,300,300; with
jitter the result is the capped base plus `base · u` floored at 0
(`u` the `random.uniform(-jitter, jitter)` draw).  The nonnegativity
hypotheses on `initial` and `max_delay` reflect the validated
`RetryPolicy` ranges (`initial_delay ≥ 1`, `max_delay ≥ 10`). -/
theorem exponential_backoff_spec (i f M j : ℚ)
    (hi : 0 ≤ i) (hf : 1 ≤ f) (hM : 0 ≤ M) :
    (∀ n : Nat, exponential_backoff n i f M 0 0 = min (i * f ^ n) M) ∧
    (∀ n : Nat, exponential_backoff n i f M 0 0 ≤ exponential_backoff (n + 1) i f M 0 0) ∧
    (∀ n m : Nat, M ≤ i * f ^ n → n ≤ m → exponential_backoff m i f M 0 0 = M) ∧
    ((List.range 8).map (fun n => exponential_backoff n 5 2 300 0 0) =
      [5, 10, 20, 40, 80, 160, 300, 300]) ∧
    (∀ (n : Nat) (u : ℚ), exponential_backoff n i f M j u =
      max 0 (min (i * f ^ n) M + min (i * f ^ n) M * u)) := by
  have hf0 : (0:ℚ) ≤ f := le_trans zero_le_one hf
  have hbase : ∀ n : Nat, 0 ≤ min (i * f ^ n) M := fun n =>
    le_min (mul_nonneg hi (pow_nonneg hf0 n)) hM
  have hzero : ∀ n : Nat, exponential_backoff n i f M 0 0 = min (i * f ^ n) M := by
    intro n
    simp only [exponential_backoff, calculate_jitter, mul_zero, add_zero]
    exact max_eq_right (hbase n)
  have hpow : ∀ {n m : Nat}, n ≤ m → i * f ^ n ≤ i * f ^ m := fun hnm =>
    mul_le_mul_of_nonneg_left (pow_le_pow_right₀ hf hnm) hi
  refine ⟨hzero, ?_, ?_, ?_, fun n u => rfl⟩
  · intro n
    rw [hzero, hzero]
    exact min_le_min (hpow (Nat.le_succ n)) le_rfl
  · intro n m hMn hnm
    rw [hzero]
    exact min_eq_right (le_trans hMn (hpow hnm))
  · norm_num [List.range_succ, exponential_backoff, calculate_jitter, min_def, max_def]

/-- Witness for C6 at the example policy values. -/
theorem exponential_backoff_spec_witness :
    exponential_backoff 3 5 2 300 0 0 = min ((5:ℚ) * 2 ^ 3) 300 ∧
    ((List.range 8).map (fun n => exponential_backoff n 5 2 300 0 0) =
      [5, 10, 20, 40, 80, 160, 300, 300]) :=
  ⟨(exponential_backoff_spec 5 2 300 (1/5) (by norm_num) (by norm_num) (by norm_num)).1 3,
   (exponential_backoff_spec 5 2 300 (1/5) (by norm_num) (by norm_num) (by norm_num)).2.2.2.1⟩

/-! ## C2 — retry exhaustion -/

/-- Helper: a failed attempt with iterations to spare increments the
retry counter and moves to the next attempt. -/
theorem executeAttempts_failStep (outcome : Nat → AttemptOutcome) (now : Nat)
    (k a : Nat) (t : Task) (e : String) (h : outcome a = .error e) :
    executeAttempts outcome now (k + 1 + 1) a t =
      executeAttempts outcome now (k + 1) (a + 1) t.increment_retry := by
  simp [executeAttempts, h]

/-- Helper: an attempt loop whose every attempt fails runs `increment_retry`
once per attempt — the final attempt included — and re-raises the final
attempt's error; `status`, `id` and the policy are untouched by the loop
itself. -/
theorem executeAttempts_allFail (outcome : Nat → AttemptOutcome) (now : Nat)
    (errs : Nat → String) (h : ∀ n, outcome n = .error (errs n)) :
    ∀ (k a : Nat) (t : Task), ∃ t',
      executeAttempts outcome now (k + 1) a t = (.error (errs (a + k), t'), []) ∧
      t'.retry_count = t.retry_count + (k + 1) ∧ t'.id = t.id ∧
      t'.status = t.status ∧ t'.error_message = t.error_message := by
  intro k
  induction k with
  | zero =>
      intro a t
      refine ⟨t.increment_retry, ?_, ?_, rfl, rfl, rfl⟩
      · simp [executeAttempts, h a]
      · simp [Task.increment_retry]
  | succ k ih =>
      intro a t
      obtain ⟨t', ht', hrc, hid, hst, herr⟩ := ih (a + 1) t.increment_retry
      refine ⟨t', ?_, ?_, hid, hst, herr⟩
      · rw [executeAttempts_failStep outcome now k a t (errs a) (h a), ht']
        have : a + 1 + k = a + (k + 1) := by omega
        rw [this]
      · simp [Task.increment_retry] at hrc
        omega

/-- Helper: an attempt that succeeds immediately completes the task. -/
theorem executeAttempts_firstOk (outcome : Nat → AttemptOutcome) (now : Nat)
    (k a : Nat) (t : Task) (sid bn : String) (h : outcome a = .ok (sid, bn)) :
    executeAttempts outcome now (k + 1) a t =
      (.ok (t.complete (some sid) (some bn) now), [(t.id, .completed)]) := by
  simp [executeAttempts, h]

/-- Helper: the semaphore wrapper on a task whose first attempt succeeds. -/
theorem semaphore_firstOk (outcome : Nat → AttemptOutcome) (now : Nat)
    (t : Task) (sid bn : String)
    (hmax : 1 ≤ t.retry_policy.max_attempts) (h : outcome 0 = .ok (sid, bn)) :
    execute_task_with_semaphore outcome now t =
      (((t.start now).complete (some sid) (some bn) now, true),
       [(t.id, .running), (t.id, .completed)]) := by
  obtain ⟨k, hk⟩ : ∃ k, t.retry_policy.max_attempts = k + 1 :=
    ⟨t.retry_policy.max_attempts - 1, by omega⟩
  have hpol : (t.start now).retry_policy.max_attempts = k + 1 := by
    simp [Task.start, hk]
  have hident : (t.start now).id = t.id := by simp [Task.start]
  simp [execute_task_with_semaphore, execute_task_with_retry, hpol, hident,
    executeAttempts_firstOk outcome now k 0 (t.start now) sid bn h]

/-- C2 counterexample: with the default policy (`max_attempts = 3`) and
an executor failing every attempt, the finished task carries
`retry_count = 3` — `increment_retry` runs after the final failure too —
not the 2 the claim states. -/
theorem retry_exhaustion_count_cex :
    baseTask.retry_policy.max_attempts = 3 ∧ baseTask.retry_count = 0 ∧
    (execute_task_with_semaphore (fun _ => .error "boom") 0 baseTask).1.1.retry_count = 3 ∧
    ¬ (execute_task_with_semaphore (fun _ => .error "boom") 0 baseTask).1.1.retry_count = 2 := by
  decide

/-- C2 amended: a task with `retry_policy.max_attempts = 3` whose every
attempt fails ends with status failed, `retry_count = 3` (one increment
per failed attempt, the final attempt included), and `error_message`
equal to the final attempt's message (in particular non-empty whenever
that message is); a sibling task launched in the same wave still runs to
its own outcome. -/
theorem retry_exhaustion_spec
    (outcomes : String → Nat → AttemptOutcome) (now : Nat)
    (t sib : Task) (errs : Nat → String) (tasks0 : List Task) (sOut : String × String)
    (hmax : t.retry_policy.max_attempts = 3) (hrc : t.retry_count = 0)
    (hfail : ∀ n, outcomes t.id n = .error (errs n)) (hne : errs 2 ≠ "")
    (hsib : outcomes sib.id 0 = .ok sOut)
    (hsmax : 1 ≤ sib.retry_policy.max_attempts) :
    ∃ t' s',
      (runWave outcomes now [t, sib] ⟨tasks0, [], [], []⟩).failed = [t'] ∧
      (runWave outcomes now [t, sib] ⟨tasks0, [], [], []⟩).completed = [s'] ∧
      t'.id = t.id ∧ t'.status = .failed ∧ t'.retry_count = 3 ∧
      t'.error_message = some (errs 2) ∧ t'.error_message ≠ some "" ∧
      s'.id = sib.id ∧ s'.status = .completed := by
  have hpol : (t.start now).retry_policy.max_attempts = 2 + 1 := by
    simp [Task.start, hmax]
  obtain ⟨tmid, hmid, hmidrc, hmidid, hmidst, hmiderr⟩ :=
    executeAttempts_allFail (outcomes t.id) now errs hfail 2 0 (t.start now)
  have hsem_t :
      execute_task_with_semaphore (outcomes t.id) now t =
        ((tmid.fail (errs 2) now, false),
         [(t.id, .running)] ++ [((tmid.fail (errs 2) now).id, .failed)]) := by
    have hident : (t.start now).id = t.id := by simp [Task.start]
    simp [execute_task_with_semaphore, execute_task_with_retry, hpol, hident, hmid]
  have hsem_s := semaphore_firstOk (outcomes sib.id) now sib sOut.1 sOut.2 hsmax (by
    simpa using hsib)
  refine ⟨tmid.fail (errs 2) now, (sib.start now).complete (some sOut.1) (some sOut.2) now,
    ?_, ?_, ?_, ?_, ?_, ?_, ?_, ?_, ?_⟩
  · simp [runWave, hsem_t, hsem_s]
  · simp [runWave, hsem_t, hsem_s]
  · simp [Task.fail, hmidid, Task.start]
  · simp [Task.fail]
  · have : (t.start now).retry_count = 0 := by simp [Task.start, hrc]
    simp [Task.fail, hmidrc, this]
  · simp [Task.fail]
  · simp [Task.fail]
    exact hne
  · simp [Task.complete, Task.start]
  · simp [Task.complete]

/-- Witness for C2 (amended) at concrete tasks and outcomes: task `A`
always fails and ends failed with `retry_count = 3`, sibling `B`
completes. -/
theorem retry_exhaustion_spec_witness :
    (runWave (fun tid n => if tid = "A" then .error ("boom " ++ toString n) else .ok ("s", "b"))
      7 [taskA, taskB] ⟨[taskA, taskB], [], [], []⟩).failed.map Task.retry_count = [3] ∧
    (runWave (fun tid n => if tid = "A" then .error ("boom " ++ toString n) else .ok ("s", "b"))
      7 [taskA, taskB] ⟨[taskA, taskB], [], [], []⟩).failed.map Task.status = [.failed] ∧
    (runWave (fun tid n => if tid = "A" then .error ("boom " ++ toString n) else .ok ("s", "b"))
      7 [taskA, taskB] ⟨[taskA, taskB], [], [], []⟩).completed.map Task.status = [.completed] := by
  obtain ⟨t', s', hf, hc, _, hst, hrc, _, _, _, hsst⟩ :=
    retry_exhaustion_spec
      (fun tid n => if tid = "A" then .error ("boom " ++ toString n) else .ok ("s", "b"))
      7 taskA taskB (fun n => "boom " ++ toString n) [taskA, taskB] ("s", "b")
      (by decide) (by decide) (fun n => by simp [taskA, baseTask]) (by decide)
      (by simp [taskB, baseTask]) (by decide)
  refine ⟨?_, ?_, ?_⟩
  · rw [hf]; simp [hrc]
  · rw [hf]; simp [hst]
  · rw [hc]; simp [hsst]

/-! ## C8 — session log round-trip -/

/-- Helper: `from_dict` inverts `to_dict` exactly (any `now`). -/
theorem from_dict_to_dict (now : String) (s : SessionInfo) :
    SessionInfo.from_dict now s.to_dict = .ok s := by
  cases s with
  | mk sid tid bn sa url => cases bn <;> cases url <;> rfl

/-- Helper: replaying a log of well-formed session lines appends exactly
those sessions to the accumulator. -/
theorem loadSessionsGo_wellFormed (now' : String) (ss : List SessionInfo) :
    ∀ acc, loadSessionsGo now' (ss.map (fun s => some s.to_dict)) acc = acc ++ ss := by
  induction ss with
  | nil => intro acc; simp [loadSessionsGo]
  | cons s rest ih =>
      intro acc
      simp [loadSessionsGo, from_dict_to_dict, ih]

/-- Helper: the in-memory list and the log after a sequence of
`add_session` calls with successful writes. -/
theorem applyAddCalls_spec (cs : List AddCall) : ∀ mgr : SessionManager,
    (applyAddCalls mgr cs).sessions =
      mgr.sessions ++ cs.map (fun c => sessionOf c.session_id c.task_id c.branch_name c.url c.now) ∧
    (applyAddCalls mgr cs).log =
      mgr.log ++ cs.map (fun c => some (sessionOf c.session_id c.task_id c.branch_name c.url c.now).to_dict) := by
  induction cs with
  | nil => intro mgr; simp [applyAddCalls]
  | cons c rest ih =>
      intro mgr
      have hstep : applyAddCalls mgr (c :: rest) =
          applyAddCalls ((add_session true mgr c.session_id c.task_id c.branch_name c.url c.now).2) rest := rfl
      obtain ⟨h1, h2⟩ := ih (add_session true mgr c.session_id c.task_id c.branch_name c.url c.now).2
      rw [hstep]
      constructor
      · rw [h1]; simp [add_session, persist_session, persistRaw, sessionOf]
      · rw [h2]; simp [add_session, persist_session, persistRaw, sessionOf]

/-- C8 amended: (1) the round-trip holds for well-formed logs — replaying
the log written by any sequence of `add_session` calls reproduces the
in-memory session list exactly (hence the same
`(session_id, task_id, branch_name)` tuples, in order); (2) lines that
fail JSON decoding are skipped; (3) JSON-object lines missing a required
key are skipped (`KeyError`); but (4) a line whose replay raises any
other error — e.g. valid JSON that is not an object, such as a bare
number — stops the replay at that point and drops all later lines
(`load_sessions` itself still returns normally with the sessions
replayed so far). -/
theorem session_roundtrip_spec :
    (∀ (cs : List AddCall) (now' : String),
      load_sessions now' (applyAddCalls {} cs).log = (applyAddCalls {} cs).sessions ∧
      (load_sessions now' (applyAddCalls {} cs).log).map sessionTuple =
        cs.map (fun c => (c.session_id, c.task_id, c.branch_name))) ∧
    (∀ (now' : String) (rest : List (Option Json)),
      load_sessions now' (none :: rest) = load_sessions now' rest) ∧
    (∀ (now' : String) (rest : List (Option Json)),
      load_sessions now' (some (.obj []) :: rest) = load_sessions now' rest) ∧
    (∀ (now' : String) (k : Int) (rest : List (Option Json)),
      load_sessions now' (some (.num k) :: rest) = []) := by
  refine ⟨?_, ?_, ?_, ?_⟩
  · intro cs now'
    obtain ⟨h1, h2⟩ := applyAddCalls_spec cs {}
    have hload : load_sessions now' (applyAddCalls {} cs).log =
        cs.map (fun c => sessionOf c.session_id c.task_id c.branch_name c.url c.now) := by
      rw [h2]
      show loadSessionsGo now' _ [] = _
      have := loadSessionsGo_wellFormed now'
        (cs.map (fun c => sessionOf c.session_id c.task_id c.branch_name c.url c.now)) []
      simpa [List.map_map, Function.comp] using this
    refine ⟨by rw [hload, h1]; simp, ?_⟩
    rw [hload]
    simp [List.map_map, Function.comp, sessionTuple, sessionOf]
  · intro now' rest; rfl
  · intro now' rest; rfl
  · intro now' k rest; rfl

/-- C8 counterexample: a log holding a well-formed line, then the line
`42` (valid JSON, not an object), then another well-formed line.  The
claim says malformed lines are skipped and never abort the replay, but
the `42` line stops it: only the first session is reproduced and the
well-formed third line is lost. -/
theorem load_sessions_abort_cex :
    (load_sessions "T" cexSessionLog).map sessionTuple = [("s1", "t1", some "b1")] ∧
    ("s2", "t2", some "b2") ∉ (load_sessions "T" cexSessionLog).map sessionTuple ∧
    cexSessionLog.get? 2 = some (some sess2.to_dict) ∧
    SessionInfo.from_dict "T" sess2.to_dict = .ok sess2 ∧
    sessionTuple sess2 = ("s2", "t2", some "b2") := by
  refine ⟨rfl, by decide, rfl, rfl, rfl⟩

/-! ## C1 — runnable-task characterization -/

/-- Helper: `get_task` succeeds exactly on the ids present in the list. -/
theorem getTaskIn_exists_iff (tasks : List Task) (d : String) :
    (∃ u, getTaskIn tasks d = some u) ↔ d ∈ tasks.map Task.id := by
  constructor
  · rintro ⟨u, hu⟩
    have hmem := List.mem_of_find?_eq_some hu
    have hid := List.find?_some hu
    simp only [decide_eq_true_eq] at hid
    exact hid ▸ List.mem_map_of_mem Task.id hmem
  · intro hd
    obtain ⟨u, hu, hid⟩ := List.mem_map.mp hd
    have hsome : (List.find? (fun t => decide (t.id = d)) tasks).isSome := by
      rw [List.find?_isSome]
      exact ⟨u, hu, by simp [hid]⟩
    obtain ⟨v, hv⟩ := Option.isSome_iff_exists.mp hsome
    exact ⟨v, hv⟩

/-- Helper: the dangling-reference check passes exactly when every
dependency of every task is among the ids. -/
theorem checkMissingDeps_ok_iff (ids : List String) (tasks : List Task) :
    checkMissingDeps ids tasks = .ok () ↔
      ∀ t ∈ tasks, ∀ d ∈ t.dependencies, d ∈ ids := by
  induction tasks with
  | nil => simp [checkMissingDeps]
  | cons t ts ih =>
      cases hfind : t.dependencies.find? (fun d => decide (d ∉ ids)) with
      | some d =>
          have hd := List.find?_some hfind
          have hmem := List.mem_of_find?_eq_some hfind
          simp only [decide_eq_true_eq] at hd
          simp only [checkMissingDeps, hfind]
          constructor
          · intro h; cases h
          · intro h
            exact absurd (h t (by simp) d hmem) hd
      | none =>
          have hall := List.find?_eq_none.mp hfind
          simp only [decide_eq_true_eq] at hall
          simp only [checkMissingDeps, hfind, ih]
          constructor
          · intro h t' ht' d hd
            rcases List.mem_cons.mp ht' with rfl | ht''
            · exact not_not.mp (hall d hd)
            · exact h t' ht'' d hd
          · intro h t' ht' d hd
            exact h t' (List.mem_cons_of_mem _ ht') d hd

/-- Helper: a passing full validation implies the dangling check passed. -/
theorem validateTaskList_ok_missing (tasks : List Task)
    (h : validateTaskList tasks = .ok ()) :
    checkMissingDeps (tasks.map Task.id) tasks = .ok () := by
  by_cases hnd : (tasks.map Task.id).Nodup
  · cases hcm : checkMissingDeps (tasks.map Task.id) tasks with
    | ok u => cases u; rfl
    | error e =>
        exfalso
        simp [validateTaskList, validate_unique_ids, validate_dependencies, hnd,
          hcm, Bind.bind, Except.bind] at h
  · exfalso
    simp [validateTaskList, validate_unique_ids, hnd, Bind.bind, Except.bind] at h

/-- Helper: `complete()` calls never change the id sequence of the list. -/
theorem applyCompletes_ids (tl : TaskList) (cs : List CompleteCall) :
    (tl.applyCompletes cs).tasks.map Task.id = tl.tasks.map Task.id := by
  induction cs generalizing tl with
  | nil => rfl
  | cons c rest ih =>
      have hstep : tl.applyCompletes (c :: rest) = (tl.completeTask c).applyCompletes rest := rfl
      rw [hstep, ih]
      simp only [TaskList.completeTask, List.map_map, Function.comp]
      refine List.map_congr_left ?_
      intro t _
      by_cases h : t.id = c.task_id <;> simp [h, Task.complete]

/-- Helper: every task of the list after `complete()` calls has the
dependency list of some original task. -/
theorem applyCompletes_member_deps (tl : TaskList) (cs : List CompleteCall) :
    ∀ t ∈ (tl.applyCompletes cs).tasks, ∃ t₀ ∈ tl.tasks, t.dependencies = t₀.dependencies := by
  induction cs generalizing tl with
  | nil => intro t ht; exact ⟨t, ht, rfl⟩
  | cons c rest ih =>
      intro t ht
      have hstep : tl.applyCompletes (c :: rest) = (tl.completeTask c).applyCompletes rest := rfl
      rw [hstep] at ht
      obtain ⟨t₁, ht₁, hdep₁⟩ := ih (tl.completeTask c) t ht
      simp only [TaskList.completeTask, List.mem_map] at ht₁
      obtain ⟨t₀, ht₀, rfl⟩ := ht₁
      refine ⟨t₀, ht₀, ?_⟩
      by_cases h : t₀.id = c.task_id <;> simp [h, Task.complete] at hdep₁ ⊢ <;> exact hdep₁

/-- C1: for a task list that passed construction-time validation, and
after any sequence of `complete()` calls, `get_runnable_tasks()` returns
exactly the tasks that are pending and all of whose dependencies resolve
to completed tasks. -/
theorem runnable_tasks_characterization (tl : TaskList) (cs : List CompleteCall)
    (hv : validateTaskList tl.tasks = .ok ()) (t : Task) :
    t ∈ (tl.applyCompletes cs).get_runnable_tasks ↔
      t ∈ (tl.applyCompletes cs).tasks ∧ t.status = .pending ∧
      ∀ d ∈ t.dependencies, ∀ u, (tl.applyCompletes cs).get_task d = some u →
        u.status = .completed := by
  have hmissing := validateTaskList_ok_missing tl.tasks hv
  have hclosed := (checkMissingDeps_ok_iff (tl.tasks.map Task.id) tl.tasks).mp hmissing
  -- every dependency of a member of the updated list resolves
  have hres : ∀ t' ∈ (tl.applyCompletes cs).tasks, ∀ d ∈ t'.dependencies,
      ∃ u, (tl.applyCompletes cs).get_task d = some u := by
    intro t' ht' d hd
    obtain ⟨t₀, ht₀, hdep⟩ := applyCompletes_member_deps tl cs t' ht'
    have hmem : d ∈ tl.tasks.map Task.id := hclosed t₀ ht₀ d (hdep ▸ hd)
    have : d ∈ (tl.applyCompletes cs).tasks.map Task.id := by
      rw [applyCompletes_ids]; exact hmem
    exact (getTaskIn_exists_iff _ d).mpr this
  unfold TaskList.get_runnable_tasks
  rw [List.mem_filter]
  constructor
  · rintro ⟨hmem, hp⟩
    rw [Bool.and_eq_true, decide_eq_true_eq, List.all_eq_true] at hp
    refine ⟨hmem, hp.1, ?_⟩
    intro d hd u hu
    have := hp.2 d hd
    rw [hu] at this
    exact decide_eq_true_eq.mp this
  · rintro ⟨hmem, hpend, hdeps⟩
    refine ⟨hmem, ?_⟩
    rw [Bool.and_eq_true, decide_eq_true_eq, List.all_eq_true]
    refine ⟨hpend, ?_⟩
    intro d hd
    obtain ⟨u, hu⟩ := hres t hmem d hd
    rw [hu]
    exact decide_eq_true_eq.mpr (hdeps d hd u hu)

/-- Witness for C1: the two-task list `A ← B` after completing `A`; task
`B` (unchanged by that call) is runnable, and the characterization holds
for it. -/
theorem runnable_tasks_characterization_witness :
    taskB ∈ ((TaskList.mk [taskA, taskB]).applyCompletes
        [{ task_id := "A", session_id := some "s", branch_name := some "b", now := 1 }]).get_runnable_tasks ↔
      taskB ∈ ((TaskList.mk [taskA, taskB]).applyCompletes
        [{ task_id := "A", session_id := some "s", branch_name := some "b", now := 1 }]).tasks ∧
      taskB.status = .pending ∧
      ∀ d ∈ taskB.dependencies, ∀ u,
        ((TaskList.mk [taskA, taskB]).applyCompletes
          [{ task_id := "A", session_id := some "s", branch_name := some "b", now := 1 }]).get_task d = some u →
        u.status = .completed :=
  runnable_tasks_characterization (TaskList.mk [taskA, taskB])
    [{ task_id := "A", session_id := some "s", branch_name := some "b", now := 1 }]
    rfl taskB

/-! ## C4 — dependency ordering across waves -/

/-- C4: with tasks `A` (no dependencies) and `B` (depending on `A`), both
pending and both succeeding, the orchestrator's event trace is exactly
`A running, A completed, B running, B completed` — so `B` leaves pending
only after `A` has status completed — and the final summary reports 2
completed, 0 failed.  (`max_parallel = 2` only sizes the semaphore; it
changes nothing about wave boundaries, which are what order `A` before
`B`.) -/
theorem dependency_wave_ordering
    (outcomes : String → Nat → AttemptOutcome) (now : Nat)
    (tA tB : Task) (sidA bnA sidB bnB : String)
    (hid : tA.id ≠ tB.id)
    (hdepA : tA.dependencies = []) (hdepB : tB.dependencies = [tA.id])
    (hstB : tB.status = .pending)
    (hmaxA : 1 ≤ tA.retry_policy.max_attempts) (hmaxB : 1 ≤ tB.retry_policy.max_attempts)
    (houtA : outcomes tA.id 0 = .ok (sidA, bnA)) (houtB : outcomes tB.id 0 = .ok (sidB, bnB)) :
    (execute_tasks_parallel outcomes now ⟨[tA, tB], [], [], []⟩).trace =
      [(tA.id, .running), (tA.id, .completed), (tB.id, .running), (tB.id, .completed)] ∧
    show_completion (execute_tasks_parallel outcomes now ⟨[tA, tB], [], [], []⟩) =
      ⟨2, 0, 0⟩ := by
  have hBA : tB.id ≠ tA.id := Ne.symm hid
  have hsemA := semaphore_firstOk (outcomes tA.id) now tA sidA bnA hmaxA houtA
  have hsemB := semaphore_firstOk (outcomes tB.id) now tB sidB bnB hmaxB houtB
  set tA' := (tA.start now).complete (some sidA) (some bnA) now with htA'
  set tB' := (tB.start now).complete (some sidB) (some bnB) now with htB'
  have hA'id : tA'.id = tA.id := by simp [htA', Task.start, Task.complete]
  have hB'id : tB'.id = tB.id := by simp [htB', Task.start, Task.complete]
  have hA'st : tA'.status = .completed := by simp [htA', Task.complete]
  have hB'st : tB'.status = .completed := by simp [htB', Task.complete]
  have hA'dep : tA'.dependencies = tA.dependencies := by simp [htA', Task.start, Task.complete]
  have hB'dep : tB'.dependencies = tB.dependencies := by simp [htB', Task.start, Task.complete]
  -- initial wave: only A has no dependencies
  have hwave : ([tA, tB].filter (fun t => decide (t.dependencies = []))) = [tA] := by
    simp [List.filter, hdepA, hdepB]
  -- state after wave 1
  have h1 : runWave outcomes now [tA] ⟨[tA, tB], [], [], []⟩ =
      ⟨[tA', tB], [tA'], [], [(tA.id, .running), (tA.id, .completed)]⟩ := by
    simp only [runWave, List.foldl_cons, List.foldl_nil, hsemA]
    simp [updateTask, hA'id, hBA]
  -- the dependent round finds exactly B runnable
  have hrun1 : ([tA', tB].filter (fun t =>
      decide (t.status = .pending) &&
      t.dependencies.all (fun dep_id =>
        match getTaskIn [tA', tB] dep_id with
        | some d => decide (d.status = .completed)
        | none => false))) = [tB] := by
    have hlook : getTaskIn [tA', tB] tA.id = some tA' := by
      simp [getTaskIn, List.find?_cons, hA'id]
    simp [List.filter, hA'st, hstB, hdepB, hB'dep, hlook]
  -- state after wave 2
  have h2 : runWave outcomes now [tB]
      ⟨[tA', tB], [tA'], [], [(tA.id, .running), (tA.id, .completed)]⟩ =
      ⟨[tA', tB'], [tA', tB'], [],
        [(tA.id, .running), (tA.id, .completed), (tB.id, .running), (tB.id, .completed)]⟩ := by
    simp only [runWave, List.foldl_cons, List.foldl_nil, hsemB]
    simp [updateTask, hA'id, hB'id, hid, hBA]
  -- after wave 2 nothing is runnable
  have hrun2 : ([tA', tB'].filter (fun t =>
      decide (t.status = .pending) &&
      t.dependencies.all (fun dep_id =>
        match getTaskIn [tA', tB'] dep_id with
        | some d => decide (d.status = .completed)
        | none => false))) = [] := by
    simp [List.filter, hA'st, hB'st]
  have hfinal : execute_tasks_parallel outcomes now ⟨[tA, tB], [], [], []⟩ =
      ⟨[tA', tB'], [tA', tB'], [],
        [(tA.id, .running), (tA.id, .completed), (tB.id, .running), (tB.id, .completed)]⟩ := by
    unfold execute_tasks_parallel
    simp only [hwave, h1]
    show processDependentTasks outcomes now (2 * 2) _ = _
    unfold processDependentTasks
    simp only [hrun1]
    norm_num
    unfold processDependentTasks
    simp only [h2, hrun2]
    norm_num
  rw [hfinal]
  refine ⟨rfl, ?_⟩
  simp [show_completion, List.filter, hA'st, hB'st]

/-- Witness for C4 at concrete tasks `A`, `B` and first-attempt-success
outcomes. -/
theorem dependency_wave_ordering_witness :
    (execute_tasks_parallel allSucceedOutcomes 3 ⟨[taskA, taskB], [], [], []⟩).trace =
      [("A", .running), ("A", .completed), ("B", .running), ("B", .completed)] ∧
    show_completion (execute_tasks_parallel allSucceedOutcomes 3 ⟨[taskA, taskB], [], [], []⟩) =
      ⟨2, 0, 0⟩ :=
  dependency_wave_ordering allSucceedOutcomes 3 taskA taskB
    "session_A" "claude/A" "session_B" "claude/B"
    (by decide) rfl rfl rfl (by decide) (by decide) rfl rfl

/-! ## C3 — completion detection -/

/-- Helper: the `is_create_pr_button_enabled` loop is decided by the
first Create-PR button in element order. -/
theorem firstCreatePrDecision_eq (els : List SnapElement) :
    firstCreatePrDecision els =
      match els.find? isCreatePrButton with
      | some e => !(containsSub "[disabled]".data e.raw)
      | none => false := by
  induction els with
  | nil => rfl
  | cons e es ih =>
      by_cases h : (e.type = "button".data ∧ containsSub "create pr".data e.raw = true)
      · have hb : isCreatePrButton e = true := by
          simp [isCreatePrButton, h.1, h.2]

        simp [firstCreatePrDecision, h, List.find?_cons, hb]
      · have hb : isCreatePrButton e = false := by
          cases hc : containsSub "create pr".data e.raw <;>
            by_cases ht : e.type = "button".data <;>
            simp_all [isCreatePrButton]
        simp [firstCreatePrDecision, h, List.find?_cons, hb, ih]

/-- C3 amended: completion detection is two-tier.  If the *first*
Create-PR button of the parsed snapshot is not marked disabled, the task
is reported complete.  If that button is marked disabled — or no such
button exists — the outcome equals the secondary signal: an extractable
`claude/...` branch name together with at least one completion keyword.
So a disabled Create-PR control yields "not complete" only when the
secondary signal is also absent, not regardless of other keywords as the
claim states (see the counterexample); and "enabled ⇒ complete" holds
for the first matching button, the one the source inspects. -/
theorem completion_detection_spec :
    (∀ (text : List Char) (e : SnapElement),
      (parse_elements text).find? isCreatePrButton = some e →
      containsSub "[disabled]".data e.raw = false →
      checkTaskComplete text = true) ∧
    (∀ (text : List Char) (e : SnapElement),
      (parse_elements text).find? isCreatePrButton = some e →
      containsSub "[disabled]".data e.raw = true →
      checkTaskComplete text =
        ((extract_branch_name text).isSome &&
         completion_keywords.any (fun k => containsSub k (toLowerL text)))) ∧
    (∀ text : List Char,
      (parse_elements text).find? isCreatePrButton = none →
      checkTaskComplete text =
        ((extract_branch_name text).isSome &&
         completion_keywords.any (fun k => containsSub k (toLowerL text)))) := by
  have hmain : ∀ text : List Char,
      is_create_pr_button_enabled text =
        match (parse_elements text).find? isCreatePrButton with
        | some e => !(containsSub "[disabled]".data e.raw)
        | none => false := fun text => firstCreatePrDecision_eq (parse_elements text)
  refine ⟨?_, ?_, ?_⟩
  · intro text e hfind hdis
    have : is_create_pr_button_enabled text = true := by
      rw [hmain, hfind]; simp [hdis]
    simp [checkTaskComplete, this]
  · intro text e hfind hdis
    have henabled : is_create_pr_button_enabled text = false := by
      rw [hmain, hfind]; simp [hdis]
    simp only [checkTaskComplete, henabled, Bool.false_eq_true, if_false]
    cases hbr : (extract_branch_name text).isSome <;> simp [hbr]
  · intro text hfind
    have henabled : is_create_pr_button_enabled text = false := by
      rw [hmain, hfind]
    simp only [checkTaskComplete, henabled, Bool.false_eq_true, if_false]
    cases hbr : (extract_branch_name text).isSome <;> simp [hbr]

/-- Witness for C3 (amended): the enabled-button page is reported
complete; the disabled-button page's outcome equals its secondary
signal. -/
theorem completion_detection_spec_witness :
    checkTaskComplete enabledSnapshotText.data = true ∧
    checkTaskComplete cexSnapshotText.data =
      ((extract_branch_name cexSnapshotText.data).isSome &&
       completion_keywords.any (fun k => containsSub k (toLowerL cexSnapshotText.data))) :=
  ⟨completion_detection_spec.1 enabledSnapshotText.data enabledSnapshotElement rfl rfl,
   completion_detection_spec.2.1 cexSnapshotText.data cexSnapshotElement rfl rfl⟩

/-- C3 counterexample: `cexSnapshotText` contains exactly one Create-PR
button and it is marked disabled, yet completion detection reports the
task complete — the secondary signal (branch name + keyword) overrides,
contradicting "reports not complete regardless of what other keywords
are present". -/
theorem completion_detection_disabled_cex :
    parse_elements cexSnapshotText.data = [cexSnapshotElement] ∧
    isCreatePrButton cexSnapshotElement = true ∧
    containsSub "[disabled]".data cexSnapshotElement.raw = true ∧
    is_create_pr_button_enabled cexSnapshotText.data = false ∧
    checkTaskComplete cexSnapshotText.data = true :=
  ⟨rfl, rfl, rfl, rfl, rfl⟩

/-! ## C5 — construction-time validation errors

The completeness argument for the DFS on a mutual pair `a ↔ b`:
`visited` only ever grows (monotonicity); entering either node of the
pair while the other is absent from `visited` or present on the
recursion stack returns `True` (lemma "reaches": the loop over the
entered node's dependencies must hit the partner); and a call that
returns `False` while both pair nodes satisfy "in `visited` implies on
the recursion stack" cannot have visited either of them (lemma "noNew").
The three statements are proved together by induction on the fuel. -/

/-- Helper: the dependency loop only ever grows `visited`. -/
theorem hasCycleDeps_mono
    (next : String → Finset String → Finset String → Bool × Finset String)
    (hnext : ∀ u V R, V ⊆ (next u V R).2) :
    ∀ (ds : List String) (V R : Finset String), V ⊆ (hasCycleDeps next ds V R).2 := by
  intro ds
  induction ds with
  | nil => intro V R; simp [hasCycleDeps]
  | cons d ds ih =>
      intro V R
      simp only [hasCycleDeps]
      by_cases hd : d ∉ V
      · rw [if_pos hd]
        cases hnx : next d V R with
        | mk r V' =>
            have hVV' : V ⊆ V' := by
              have := hnext d V R
              rw [hnx] at this
              exact this
            cases r
            · exact subset_trans hVV' (ih V' R)
            · exact hVV'
      · rw [if_neg hd]
        by_cases hr : d ∈ R
        · rw [if_pos hr]
        · rw [if_neg hr]
          exact ih V R

/-- Helper: `has_cycle` only ever grows `visited`. -/
theorem hasCycle_mono (dm : DepMap) :
    ∀ (fuel : Nat) (u : String) (V R : Finset String),
      V ⊆ (hasCycle fuel dm u V R).2 := by
  intro fuel
  induction fuel with
  | zero => intro u V R; simp [hasCycle]
  | succ fuel ih =>
      intro u V R
      simp only [hasCycle]
      exact subset_trans (Finset.subset_insert u V)
        (hasCycleDeps_mono (hasCycle fuel dm) (fun u' V' R' => ih u' V' R') _ _ _)

/-- Helper ("reaches"): running the dependency loop of an entered pair
node `x` (so `x` is on the recursion stack and visited) over a list that
contains the partner `y` returns `True`, provided entering `y` returns
`True` (`hLy`) and `False`-returning subcalls never visit the pair
(`hN`), with the invariant that `y` visited implies `y` on the stack. -/
theorem hasCycleDeps_reaches
    (next : String → Finset String → Finset String → Bool × Finset String)
    (x y : String)
    (hmono : ∀ u V R, V ⊆ (next u V R).2)
    (hLy : ∀ V R, (x ∈ V → x ∈ R) → (next y V R).1 = true)
    (hN : ∀ w V R V', (x ∈ V → x ∈ R) → (y ∈ V → y ∈ R) →
      next w V R = (false, V') → (x ∈ V' → x ∈ V) ∧ (y ∈ V' → y ∈ V))
    (R₀ : Finset String) (hxR : x ∈ R₀) :
    ∀ (ds : List String) (vis : Finset String), y ∈ ds → x ∈ vis →
      (y ∈ vis → y ∈ R₀) → (hasCycleDeps next ds vis R₀).1 = true := by
  intro ds
  induction ds with
  | nil => intro vis hy; exact absurd hy (List.not_mem_nil y)
  | cons d ds ih =>
      intro vis hy hx hyI
      simp only [hasCycleDeps]
      by_cases hd : d ∉ vis
      · rw [if_pos hd]
        cases hnx : next d vis R₀ with
        | mk r V' =>
            cases r
            · have hNd := hN d vis R₀ V' (fun _ => hxR) hyI hnx
              by_cases hdy : d = y
              · exfalso
                have := hLy vis R₀ (fun _ => hxR)
                rw [← hdy, hnx] at this
                simp at this
              · have hyds : y ∈ ds := by
                  rcases List.mem_cons.mp hy with h | h
                  · exact absurd h.symm hdy
                  · exact h
                have hxV' : x ∈ V' := by
                  have := hmono d vis R₀
                  rw [hnx] at this
                  exact this hx
                exact ih V' hyds hxV' (fun hyV' => hyI (hNd.2 hyV'))
            · rfl
      · rw [if_neg hd]
        by_cases hr : d ∈ R₀
        · rw [if_pos hr]
        · rw [if_neg hr]
          by_cases hdy : d = y
          · subst hdy
            exact absurd (hyI (not_not.mp hd)) hr
          · have hyds : y ∈ ds := by
              rcases List.mem_cons.mp hy with h | h
              · exact absurd h.symm hdy
              · exact h
            exact ih vis hyds hx hyI

/-- Helper ("noNew"): a dependency loop that returns `False` cannot have
visited either pair node, provided `False`-returning subcalls cannot
(`hN`) and both pair nodes satisfy "visited implies on the stack". -/
theorem hasCycleDeps_noNew
    (next : String → Finset String → Finset String → Bool × Finset String)
    (x y : String)
    (hN : ∀ w V R V', (x ∈ V → x ∈ R) → (y ∈ V → y ∈ R) →
      next w V R = (false, V') → (x ∈ V' → x ∈ V) ∧ (y ∈ V' → y ∈ V))
    (R₀ : Finset String) :
    ∀ (ds : List String) (vis V'' : Finset String),
      (x ∈ vis → x ∈ R₀) → (y ∈ vis → y ∈ R₀) →
      hasCycleDeps next ds vis R₀ = (false, V'') →
      (x ∈ V'' → x ∈ vis) ∧ (y ∈ V'' → y ∈ vis) := by
  intro ds
  induction ds with
  | nil =>
      intro vis V'' _ _ h
      simp only [hasCycleDeps, Prod.mk.injEq] at h
      rw [← h.2]
      exact ⟨id, id⟩
  | cons d ds ih =>
      intro vis V'' hxI hyI h
      simp only [hasCycleDeps] at h
      by_cases hd : d ∉ vis
      · rw [if_pos hd] at h
        cases hnx : next d vis R₀ with
        | mk r V' =>
            rw [hnx] at h
            cases r
            · have hNd := hN d vis R₀ V' hxI hyI hnx
              obtain ⟨p, q⟩ := ih V' V''
                (fun hx => hxI (hNd.1 hx)) (fun hy => hyI (hNd.2 hy)) h
              exact ⟨fun hx => hNd.1 (p hx), fun hy => hNd.2 (q hy)⟩
            · exact absurd h (by simp)
      · rw [if_neg hd] at h
        by_cases hr : d ∈ R₀
        · rw [if_pos hr] at h
          exact absurd h (by simp)
        · rw [if_neg hr] at h
          exact ih vis V'' hxI hyI h

/-- Helper: the three mutual statements about a dependency pair
`b ∈ deps(a)`, `a ∈ deps(b)`, for every fuel: entering `a` (resp. `b`)
returns `True` when the partner is unvisited or on the stack, and a
`False` return never visits either of them. -/
theorem cycleMutual (dm : DepMap) (a b : String)
    (hab : b ∈ lookupDeps dm a) (hba : a ∈ lookupDeps dm b) :
    ∀ fuel : Nat,
      (∀ V R, (b ∈ V → b ∈ R) → (hasCycle fuel dm a V R).1 = true) ∧
      (∀ V R, (a ∈ V → a ∈ R) → (hasCycle fuel dm b V R).1 = true) ∧
      (∀ w V R V', (a ∈ V → a ∈ R) → (b ∈ V → b ∈ R) →
        hasCycle fuel dm w V R = (false, V') →
        (a ∈ V' → a ∈ V) ∧ (b ∈ V' → b ∈ V)) := by
  intro fuel
  induction fuel with
  | zero =>
      refine ⟨fun V R _ => rfl, fun V R _ => rfl, ?_⟩
      intro w V R V' _ _ h
      exact absurd h (by simp [hasCycle])
  | succ fuel ih =>
      obtain ⟨La, Lb, N⟩ := ih
      have hmono : ∀ u V R, V ⊆ (hasCycle fuel dm u V R).2 := hasCycle_mono dm fuel
      have Nswap : ∀ w V R V', (b ∈ V → b ∈ R) → (a ∈ V → a ∈ R) →
          hasCycle fuel dm w V R = (false, V') →
          (b ∈ V' → b ∈ V) ∧ (a ∈ V' → a ∈ V) :=
        fun w V R V' h1 h2 hh => ⟨(N w V R V' h2 h1 hh).2, (N w V R V' h2 h1 hh).1⟩
      have La' : ∀ V R, (b ∈ V → b ∈ R) → (hasCycle (fuel + 1) dm a V R).1 = true := by
        intro V R hbI
        simp only [hasCycle]
        refine hasCycleDeps_reaches (hasCycle fuel dm) a b hmono Lb N
          (insert a R) (Finset.mem_insert_self a R) (lookupDeps dm a)
          (insert a V) hab (Finset.mem_insert_self a V) ?_
        intro hbin
        rcases Finset.mem_insert.mp hbin with hcase | hbV
        · rw [hcase]; exact Finset.mem_insert_self a R
        · exact Finset.mem_insert_of_mem (hbI hbV)
      have Lb' : ∀ V R, (a ∈ V → a ∈ R) → (hasCycle (fuel + 1) dm b V R).1 = true := by
        intro V R haI
        simp only [hasCycle]
        refine hasCycleDeps_reaches (hasCycle fuel dm) b a hmono La Nswap
          (insert b R) (Finset.mem_insert_self b R) (lookupDeps dm b)
          (insert b V) hba (Finset.mem_insert_self b V) ?_
        intro hain
        rcases Finset.mem_insert.mp hain with hcase | haV
        · rw [hcase]; exact Finset.mem_insert_self b R
        · exact Finset.mem_insert_of_mem (haI haV)
      refine ⟨La', Lb', ?_⟩
      intro w V R V' haI hbI h
      by_cases hwa : w = a
      · exfalso
        have := La' V R hbI
        rw [hwa] at h
        rw [h] at this
        simp at this
      · by_cases hwb : w = b
        · exfalso
          have := Lb' V R haI
          rw [hwb] at h
          rw [h] at this
          simp at this
        · simp only [hasCycle] at h
          have haI' : a ∈ insert w V → a ∈ insert w R := by
            intro hin
            rcases Finset.mem_insert.mp hin with hcase | haV
            · exact absurd hcase.symm hwa
            · exact Finset.mem_insert_of_mem (haI haV)
          have hbI' : b ∈ insert w V → b ∈ insert w R := by
            intro hin
            rcases Finset.mem_insert.mp hin with hcase | hbV
            · exact absurd hcase.symm hwb
            · exact Finset.mem_insert_of_mem (hbI hbV)
          obtain ⟨p, q⟩ := hasCycleDeps_noNew (hasCycle fuel dm) a b N
            (insert w R) (lookupDeps dm w) (insert w V) V' haI' hbI' h
          constructor
          · intro haV'
            rcases Finset.mem_insert.mp (p haV') with hcase | hres
            · exact absurd hcase.symm hwa
            · exact hres
          · intro hbV'
            rcases Finset.mem_insert.mp (q hbV') with hcase | hres
            · exact absurd hcase.symm hwb
            · exact hres

/-- Helper: the top-level cycle-check loop raises a circular-dependency
error whenever the remaining tasks include one end of a mutual pair and
neither end is visited yet. -/
theorem validateCyclesGo_finds (fuel : Nat) (dm : DepMap) (a b : String)
    (hab : b ∈ lookupDeps dm a) (hba : a ∈ lookupDeps dm b) :
    ∀ (ts : List Task) (visited : Finset String),
      (∃ t ∈ ts, t.id = a) → a ∉ visited → b ∉ visited →
      ∃ tid, validateCyclesGo fuel dm ts visited = .error (.circularDep tid) := by
  obtain ⟨La, Lb, N⟩ := cycleMutual dm a b hab hba fuel
  intro ts
  induction ts with
  | nil => rintro visited ⟨t, ht, _⟩ _ _; exact absurd ht (List.not_mem_nil t)
  | cons t ts ih =>
      rintro visited ⟨t₀, ht₀, hid⟩ hav hbv
      simp only [validateCyclesGo]
      by_cases htv : t.id ∉ visited
      · rw [if_pos htv]
        cases hres : hasCycle fuel dm t.id visited ∅ with
        | mk r V' =>
            cases r
            · by_cases hta : t.id = a
              · exfalso
                have := La visited ∅ (fun hbV => absurd hbV hbv)
                rw [← hta, hres] at this
                simp at this
              · by_cases htb : t.id = b
                · exfalso
                  have := Lb visited ∅ (fun haV => absurd haV hav)
                  rw [← htb, hres] at this
                  simp at this
                · have hNr := N t.id visited ∅ V'
                    (fun h => absurd h hav) (fun h => absurd h hbv) hres
                  have hmem : ∃ u ∈ ts, u.id = a := by
                    rcases List.mem_cons.mp ht₀ with hcase | h
                    · exact absurd (hcase ▸ hid) hta
                    · exact ⟨t₀, h, hid⟩
                  exact ih V' hmem (fun h => hav (hNr.1 h)) (fun h => hbv (hNr.2 h))
            · exact ⟨t.id, rfl⟩
      · rw [if_neg htv]
        have hmem : ∃ u ∈ ts, u.id = a := by
          rcases List.mem_cons.mp ht₀ with hcase | h
          · exfalso
            exact htv (fun hin => hav ((hcase ▸ hid) ▸ hin))
          · exact ⟨t₀, h, hid⟩
        exact ih visited hmem hav hbv

/-- Helper: with unique ids, the dependency map resolves each task's id
to its dependency list. -/
theorem lookupDeps_depMapOf :
    ∀ (tasks : List Task), (tasks.map Task.id).Nodup →
      ∀ t ∈ tasks, lookupDeps (depMapOf tasks) t.id = t.dependencies := by
  intro tasks
  induction tasks with
  | nil => intro _ t ht; exact absurd ht (List.not_mem_nil t)
  | cons u us ih =>
      intro hnd t ht
      have hnd' : u.id ∉ us.map Task.id ∧ (us.map Task.id).Nodup := by
        rw [List.map_cons] at hnd
        exact List.nodup_cons.mp hnd
      rcases List.mem_cons.mp ht with rfl | hts
      · simp [lookupDeps, depMapOf, List.find?_cons]
      · have hne : ¬ (u.id = t.id) := by
          intro hcontra
          exact hnd'.1 (hcontra ▸ List.mem_map_of_mem Task.id hts)
        have hstep : lookupDeps (depMapOf (u :: us)) t.id = lookupDeps (depMapOf us) t.id := by
          simp [lookupDeps, depMapOf, List.find?_cons, hne]
        rw [hstep]
        exact ih hnd'.2 t hts

/-- Helper: a task set with a dangling reference makes the
dangling-reference check raise, citing a dependency that is missing. -/
theorem checkMissingDeps_error (ids : List String) :
    ∀ tasks : List Task, (∃ t ∈ tasks, ∃ d ∈ t.dependencies, d ∉ ids) →
      ∃ tid did, checkMissingDeps ids tasks = .error (.missingDep tid did) ∧ did ∉ ids := by
  intro tasks
  induction tasks with
  | nil => rintro ⟨t, ht, _⟩; exact absurd ht (List.not_mem_nil t)
  | cons t ts ih =>
      rintro ⟨t₀, ht₀, d₀, hd₀, hd₀m⟩
      cases hfind : t.dependencies.find? (fun d => decide (d ∉ ids)) with
      | some d =>
          have hdm := List.find?_some hfind
          simp only [decide_eq_true_eq] at hdm
          refine ⟨t.id, d, ?_, hdm⟩
          simp only [checkMissingDeps]
          rw [hfind]
      | none =>
          have hall := List.find?_eq_none.mp hfind
          simp only [decide_eq_true_eq] at hall
          have hts : t₀ ∈ ts := by
            rcases List.mem_cons.mp ht₀ with rfl | h
            · exact absurd hd₀m (not_not.mpr (not_not.mp (hall d₀ hd₀)))
            · exact h
          obtain ⟨tid, did, hres, hdid⟩ := ih ⟨t₀, hts, d₀, hd₀, hd₀m⟩
          refine ⟨tid, did, ?_, hdid⟩
          simp only [checkMissingDeps]
          rw [hfind]
          exact hres

/-- C5 amended: the validators run in order (unique ids, then dangling
references, then cycles), so the two clauses hold on disjoint guards:
(1) a task set with unique ids containing a dangling dependency
reference raises, at construction, a validation error citing a missing
dependency; (2) a task set with unique ids whose references all resolve
and which contains a two-task mutual dependency raises, at construction,
a validation error citing a circular dependency.  (A set with both a
mutual pair and a dangling reference reports the missing dependency, not
the cycle — see the counterexample.) -/
theorem validation_raises_spec :
    (∀ tasks : List Task, (tasks.map Task.id).Nodup →
      (∃ t ∈ tasks, ∃ d ∈ t.dependencies, d ∉ tasks.map Task.id) →
      ∃ tid did, validateTaskList tasks = .error (.missingDep tid did) ∧
        did ∉ tasks.map Task.id) ∧
    (∀ tasks : List Task, (tasks.map Task.id).Nodup →
      (∀ t ∈ tasks, ∀ d ∈ t.dependencies, d ∈ tasks.map Task.id) →
      (∃ tA ∈ tasks, ∃ tB ∈ tasks, tA.id ≠ tB.id ∧
        tB.id ∈ tA.dependencies ∧ tA.id ∈ tB.dependencies) →
      ∃ tid, validateTaskList tasks = .error (.circularDep tid)) := by
  constructor
  · intro tasks hnd hoff
    obtain ⟨tid, did, hcm, hdid⟩ := checkMissingDeps_error (tasks.map Task.id) tasks hoff
    refine ⟨tid, did, ?_, hdid⟩
    simp [validateTaskList, validate_unique_ids, hnd, validate_dependencies, hcm,
      Bind.bind, Except.bind]
  · intro tasks hnd hclosed hpair
    obtain ⟨tA, htA, tB, htB, _, hBA, hAB⟩ := hpair
    have hcm : checkMissingDeps (tasks.map Task.id) tasks = .ok () :=
      (checkMissingDeps_ok_iff _ _).mpr hclosed
    have hab : tB.id ∈ lookupDeps (depMapOf tasks) tA.id := by
      rw [lookupDeps_depMapOf tasks hnd tA htA]; exact hBA
    have hba : tA.id ∈ lookupDeps (depMapOf tasks) tB.id := by
      rw [lookupDeps_depMapOf tasks hnd tB htB]; exact hAB
    obtain ⟨tid, hcy⟩ := validateCyclesGo_finds (cycleFuel tasks) (depMapOf tasks)
      tA.id tB.id hab hba tasks ∅ ⟨tA, htA, rfl⟩
      (Finset.not_mem_empty _) (Finset.not_mem_empty _)
    refine ⟨tid, ?_⟩
    simp [validateTaskList, validate_unique_ids, hnd, validate_dependencies, hcm, hcy,
      Bind.bind, Except.bind]

/-- Witness for C5 (amended): the pure mutual pair raises the circular
error; a lone dangling-reference task raises the missing-dependency
error. -/
theorem validation_raises_spec_witness :
    citesCircular (validateTaskList [taskAB, taskBA]) = true ∧
    citesMissing (validateTaskList [taskC]) = true := by
  constructor
  · obtain ⟨tid, h⟩ := validation_raises_spec.2 [taskAB, taskBA] (by decide)
      (by decide) ⟨taskAB, by simp, taskBA, by simp, by decide, by decide, by decide⟩
    rw [h]; rfl
  · obtain ⟨tid, did, h, _⟩ := validation_raises_spec.1 [taskC] (by decide)
      ⟨taskC, by simp, "ghost", by decide, by decide⟩
    rw [h]; rfl

/-- C5 counterexample: the set `{A ↔ B, C → ghost}` contains a two-task
mutual dependency, so the claim requires an error citing a circular
dependency — but validation reports the missing dependency `ghost`
instead, because the dangling-reference check runs first. -/
theorem validation_error_precedence_cex :
    validateTaskList [taskAB, taskBA, taskC] = .error (.missingDep "C" "ghost") ∧
    citesCircular (validateTaskList [taskAB, taskBA, taskC]) = false ∧
    citesMissing (validateTaskList [taskAB, taskBA, taskC]) = true ∧
    taskBA.id ∈ taskAB.dependencies ∧ taskAB.id ∈ taskBA.dependencies ∧
    taskAB.id ≠ taskBA.id := by
  exact ⟨rfl, rfl, rfl, by decide, by decide, by decide⟩

end Conductor
